import Mathlib

/-!
Verification of the batch-iteration engine of the `vlm` repository.

The repository excerpt under verification contains `fairseq/tasks/fairseq_task.py`
(the `FairseqTask` class with `dataset` and `get_batch_iterator`) and
`examples/speech_text_joint_to_text/scripts/entity_retrieval_scores.py`
(the scoring CLI).  `get_batch_iterator` delegates to
`data_utils.filter_by_size`, `data_utils.batch_by_size` and
`iterators.EpochBatchIterator`, whose sources are not part of the excerpt;
those three components are modelled here from the specification's component
design (sections 4.1 to 4.4), and each such definition is marked
"Modelled from the spec".  Everything else is translated directly from the
Python sources.

Conventions of the embedding: example indices are `Nat`; a dataset's
`size`/`num_tokens` capabilities are functions `Nat → Nat`; fallible
operations return `Except`; machine integers do not overflow in the
modelled code paths, so `Nat` is used throughout.
-/

/-- Packing configuration of the batch packer: the optional token budget
`max_tokens`, the optional sentence budget `max_sentences`, and the
required batch-size multiple (default 1 in the source). -/
structure PackCfg where
  maxTokens : Option Nat
  maxSentences : Option Nat
  reqMult : Nat
deriving DecidableEq

/-- Maximum single-example size (under the `num_tokens` measure `nt`) over a
batch; the running maximum the packer charges the token budget with. -/
def maxSize (nt : Nat → Nat) (b : List Nat) : Nat :=
  (b.map nt).foldr max 0

/-- Modelled from the spec (section 4.2, `data_utils.batch_by_size` is not in
the excerpt): the packer's overflow test for appending candidate `idx` to the
open batch.  The token cost if appended is
`max(running_max_size, candidate_size) * (current_length + 1)`; the append
overflows when that cost exceeds `max_tokens` (when set) or when the new
length would exceed `max_sentences` (when set). -/
def overBudget (nt : Nat → Nat) (cfg : PackCfg) (batch : List Nat) (idx : Nat) : Bool :=
  (match cfg.maxTokens with
   | some t => decide (t < maxSize nt (batch ++ [idx]) * (batch.length + 1))
   | none => false) ||
  (match cfg.maxSentences with
   | some s => decide (s < batch.length + 1)
   | none => false)

/-- Modelled from the spec (section 4.2): the packer's scan.  `rest` is the
remaining input, `closed` the batches already closed, `batch` the open batch.
On overflow the open batch is closed at its largest multiple-of-`reqMult`
prefix and the remainder is carried into the next batch ("a batch may only be
closed once its length is a multiple of that value; if closing would violate
this, keep absorbing further indices into an overflow carried into the next
batch"); with `reqMult = 1` this closes the whole open batch and starts a new
one with the candidate as its first element.  The final batch of the scan is
closed as-is (exempt from the multiple requirement). -/
def packLoop (nt : Nat → Nat) (cfg : PackCfg) :
    List Nat → List (List Nat) → List Nat → List (List Nat)
  | [], closed, batch => if batch = [] then closed else closed ++ [batch]
  | idx :: rest, closed, batch =>
    if batch ≠ [] ∧ overBudget nt cfg batch idx = true then
      if cfg.reqMult * (batch.length / cfg.reqMult) = 0 then
        packLoop nt cfg rest closed (batch ++ [idx])
      else
        packLoop nt cfg rest
          (closed ++ [batch.take (cfg.reqMult * (batch.length / cfg.reqMult))])
          (batch.drop (cfg.reqMult * (batch.length / cfg.reqMult)) ++ [idx])
    else
      packLoop nt cfg rest closed (batch ++ [idx])

/-- Modelled from the spec (section 4.2): `data_utils.batch_by_size` — greedily
partition the ordered index sequence into batches honouring the budgets. -/
def batch_by_size (nt : Nat → Nat) (cfg : PackCfg) (indices : List Nat) : List (List Nat) :=
  packLoop nt cfg indices [] []

/-- Error raised by the validity filter in strict mode, naming the offending
index and its size (`InvalidExampleError` in the spec's error taxonomy). -/
inductive InvalidExampleError where
  | invalid (index : Nat) (exampleSize : Nat) : InvalidExampleError
deriving DecidableEq

/-- Modelled from the spec (section 4.1, `data_utils.filter_by_size` is not in
the excerpt): the validity filter.  With the limit unset it returns the input
unchanged; in strict mode (`raiseOnInvalid = true`) it fails on the first
index whose size exceeds the limit, returning no partial result; otherwise
violating indices are dropped silently. -/
def filter_by_size (indices : List Nat) (size : Nat → Nat) (maxPositions : Option Nat)
    (raiseOnInvalid : Bool) : Except InvalidExampleError (List Nat) :=
  match maxPositions with
  | none => .ok indices
  | some p =>
    match indices.find? (fun i => decide (p < size i)) with
    | some j =>
      if raiseOnInvalid then .error (.invalid j (size j))
      else .ok (indices.filter (fun i => decide (size i ≤ p)))
    | none => .ok indices

/-- Composition performed by `FairseqTask.get_batch_iterator` up to the batch
sampler: order the indices (done by the dataset), filter by size with
`raise_exception = not ignore_invalid_inputs`, then pack into batches. -/
def get_batch_iterator_batches (size nt : Nat → Nat) (indices : List Nat)
    (maxPositions : Option Nat) (ignoreInvalid : Bool) (cfg : PackCfg) :
    Except InvalidExampleError (List (List Nat)) :=
  (filter_by_size indices size maxPositions (!ignoreInvalid)).map (batch_by_size nt cfg)

/-- Size bound on one example: its `num_tokens` fits the token budget
(trivially true when `max_tokens` is unset). -/
def sizeOkB (nt : Nat → Nat) (cfg : PackCfg) (i : Nat) : Bool :=
  match cfg.maxTokens with
  | some t => decide (nt i ≤ t)
  | none => true

/-- Budget respect, in the words of the spec's testable property: the charged
cost `max(size in batch) * length(batch)` is at most `max_tokens` (when set)
and `length(batch)` is at most `max_sentences` (when set). -/
def budgetOkB (nt : Nat → Nat) (cfg : PackCfg) (b : List Nat) : Bool :=
  (match cfg.maxTokens with
   | some t => decide (maxSize nt b * b.length ≤ t)
   | none => true) &&
  (match cfg.maxSentences with
   | some s => decide (b.length ≤ s)
   | none => true)

/-- Strict-mode outcome predicate for C2: the pipeline fails with an
`InvalidExampleError` naming an offending index (a member of the input whose
size exceeds the limit, reported together with that size), and returns no
partial result. -/
def failsNamingViolator (r : Except InvalidExampleError (List (List Nat)))
    (size : Nat → Nat) (p : Nat) (indices : List Nat) : Prop :=
  match r with
  | .error (.invalid j s) => j ∈ indices ∧ p < size j ∧ s = size j
  | .ok _ => False

/-- Lenient-mode outcome predicate for C2: the pipeline raises no error and
the index `i` is absent from every resulting batch. -/
def lenientExcludes (r : Except InvalidExampleError (List (List Nat))) (i : Nat) : Prop :=
  match r with
  | .ok bs => ∀ b ∈ bs, i ∉ b
  | .error _ => False

/-- Modelled from the spec (sections 4.3 and 8; the shard partitioner inside
`iterators.EpochBatchIterator` is not in the excerpt): position-based
round-robin — shard `s` receives the batches at global positions
`s, s + k, s + 2k, …` in order.  The spec's scenario fixes the policy:
5 batches over 2 shards give shard 0 the positions {0, 2, 4} and shard 1 the
positions {1, 3}. -/
def round_robin (k : Nat) : List (List Nat) → Nat → List (List Nat)
  | [], _ => []
  | b :: bs, s => if s = 0 then b :: round_robin k bs (k - 1) else round_robin k bs (s - 1)

/-- Shard partitioner: the ordered sub-list of the Global Batch List assigned
to `shardId` out of `numShards`. -/
def shard_batches (batches : List (List Nat)) (numShards shardId : Nat) : List (List Nat) :=
  round_robin numShards batches shardId

/-- Modelled from the spec (section 4.4): the deterministic combination
`hash(seed, epoch_number)` seeding the epoch permutation. -/
def hash_combine (seed epoch : Nat) : Nat := seed * 1000003 + epoch

/-- Modelled from the spec: one step of the deterministic pseudo-random
sequence driving the shuffle permutation. -/
def lcg_next (s : Nat) : Nat := (s * 1103515245 + 12345) % 2147483648

/-- Modelled from the spec (section 4.4): selection-based deterministic
permutation of the shard's batch list, a pure function of its seed. -/
def shuffle_go : Nat → Nat → List (List Nat) → List (List Nat)
  | 0, _, _ => []
  | fuel + 1, s, l =>
    match l[s % l.length]? with
    | none => []
    | some b => b :: shuffle_go fuel (lcg_next s) (l.eraseIdx (s % l.length))

/-- Deterministic epoch shuffle of a batch list. -/
def shuffle_batches (h : Nat) (l : List (List Nat)) : List (List Nat) :=
  shuffle_go l.length h l

/-- The ambient numpy random-number-generator state (the only mutable global
that `get_batch_iterator` touches). -/
abbrev RngState := Nat

/-- Modelled from the spec / `data_utils.numpy_seed(seed)`: inside the seeded
block the RNG state is a function of `seed` alone — the ambient state is
saved before and restored after, so it never influences the block. -/
def seeded_state (seed : Nat) : RngState := seed

/-- Dataset snapshot capabilities consumed by `get_batch_iterator`: per-index
sizes, per-index token counts, and the ordering capability
`ordered_indices`, which reads the ambient RNG state. -/
structure DatasetModel where
  size : Nat → Nat
  num_tokens : Nat → Nat
  ordered_indices : RngState → List Nat

/-- Full traversal of one epoch as driven by `get_batch_iterator` and the
Epoch Batch Iterator: order the indices under the seeded RNG (the ambient
pre-call state `_ambient` is saved, replaced by `seeded_state seed`, and
restored), filter, pack, shard, then traverse in shuffled
(seeded by `hash_combine seed epoch`) or original order. -/
def start_epoch_traversal (_ambient : RngState) (D : DatasetModel) (seed epoch : Nat)
    (maxPositions : Option Nat) (ignoreInvalid : Bool) (cfg : PackCfg)
    (numShards shardId : Nat) (shuffle : Bool) :
    Except InvalidExampleError (List (List Nat)) :=
  (filter_by_size (D.ordered_indices (seeded_state seed)) D.size maxPositions
      (!ignoreInvalid)).map
    (fun idcs =>
      let shard := shard_batches (batch_by_size D.num_tokens cfg idcs) numShards shardId
      if shuffle then shuffle_batches (hash_combine seed epoch) shard else shard)

/-- Parameter names of `FairseqTask.get_batch_iterator` as defined in
`fairseq/tasks/fairseq_task.py` (`self` aside; the signature declares no
var-keyword parameter). -/
def get_batch_iterator_param_names : List String :=
  ["dataset", "max_tokens", "max_sentences", "max_positions",
   "ignore_invalid_inputs", "required_batch_size_multiple",
   "seed", "num_shards", "shard_id"]

/-- Keyword-argument names of the `task.get_batch_iterator(...)` call in
`entity_retrieval_scores._main`. -/
def entity_retrieval_call_kwarg_names : List String :=
  ["dataset", "max_tokens", "max_sentences", "max_positions",
   "ignore_invalid_inputs", "required_batch_size_multiple",
   "seed", "num_shards", "shard_id", "num_workers", "data_buffer_size"]

/-- Python keyword-call acceptance for a function without a var-keyword
parameter: the call succeeds only if every keyword names a declared
parameter (otherwise `TypeError: unexpected keyword argument`). -/
def accepts_call (params kwargs : List String) : Bool :=
  kwargs.all (fun kw => params.contains kw)

/-- A value stored in the `self.datasets` dict of a task: either a
`FairseqDataset` instance or some other object (the dict is populated by
subclasses; the base class defends with an `isinstance` check). -/
inductive DatasetObj where
  | fairseqDataset (payload : Nat) : DatasetObj
  | otherObj (payload : Nat) : DatasetObj
deriving DecidableEq

/-- Errors of `FairseqTask.dataset`: `KeyError('Dataset not loaded: ' +
split)` (the spec's `UnknownSplitError`, naming the split) and
`TypeError('Datasets are expected to be of type FairseqDataset')` (the
spec's `DatasetTypeError`). -/
inductive DatasetLookupError where
  | unknownSplit (split : String) : DatasetLookupError
  | datasetTypeErr : DatasetLookupError
deriving DecidableEq

namespace FairseqTask

/-- Translation of `FairseqTask.dataset` from `fairseq_task.py`: raise
`KeyError` when the split was never loaded, raise `TypeError` when the
stored object is not a `FairseqDataset`, otherwise return the stored
dataset unchanged. -/
def dataset (datasets : List (String × DatasetObj)) (split : String) :
    Except DatasetLookupError DatasetObj :=
  match datasets.lookup split with
  | none => .error (.unknownSplit split)
  | some (.fairseqDataset p) => .ok (.fairseqDataset p)
  | some (.otherObj _) => .error .datasetTypeErr

end FairseqTask

/-- Parsed arguments of the scoring CLI that decide its exit behaviour: the
model-checkpoint path (`--path`) and the results output path. -/
structure GenArgs where
  path : Option String
  results_path : Option String
deriving DecidableEq

/-- Outcome of a CLI run: abort with a non-zero outcome, or normal
completion (exit code zero) having written the results file to the given
path. -/
inductive CliOutcome where
  | aborted : CliOutcome
  | completed (written_path : String) : CliOutcome
deriving DecidableEq

/-- Translation of `main`/`_main` of `entity_retrieval_scores.py` at the
level of its path contract: `main` asserts `args.path is not None` and
`args.results_path is not None` (an AssertionError aborts the process with a
non-zero status), and `_main` finishes by writing the pickled scores to
`args.results_path`.  The scoring work between the asserts and the final
write involves torch models and is outside the model. -/
def script_main (args : GenArgs) : CliOutcome :=
  match args.path with
  | none => .aborted
  | some _ =>
    match args.results_path with
    | none => .aborted
    | some rp => .completed rp

/-- The module-level global `TEXT_CACHE = {}` of `entity_retrieval_scores.py`:
created once per process and never cleared between runs. -/
def TEXT_CACHE_initial : List (String × Nat) := []

/-- Translation of the cache access in `generate_scores`: on a hit the
cached text-encoder output is reused (the text encoder is not called); on a
miss the candidate is encoded and the result inserted into the cache.
Returns the output, the updated cache, and whether the access was a hit. -/
def text_encode_or_cache (enc : String → Nat) (cache : List (String × Nat)) (c : String) :
    Nat × List (String × Nat) × Bool :=
  match cache.lookup c with
  | some v => (v, cache, true)
  | none => (enc c, (c, enc c) :: cache, false)

/-- One run's candidate loop of `generate_scores` threaded through the
global cache: returns the cache state after the run and the per-candidate
hit flags. -/
def generate_scores_pass (enc : String → Nat) :
    List String → List (String × Nat) → List (String × Nat) × List Bool
  | [], cache => (cache, [])
  | c :: cs, cache =>
    let step := text_encode_or_cache enc cache c
    let rest := generate_scores_pass enc cs step.2.1
    (rest.1, step.2.2 :: rest.2)

/-- Observability of a cached entry by a later run, in the words of the
claim: the later run's access to candidate `c` finds a stored value, reuses
it as a hit, and leaves the cache unchanged (no encoder call). -/
def observes_cached_entry (enc : String → Nat) (cacheAfterRun : List (String × Nat))
    (c : String) : Prop :=
  ∃ v, cacheAfterRun.lookup c = some v ∧
    text_encode_or_cache enc cacheAfterRun c = (v, cacheAfterRun, true)

/-- Translation of the budget default in `_main`: `if args.max_tokens is
None and args.max_sentences is None: args.max_tokens = 12000`; the pair
returned is what the script passes on to the batch iterator. -/
def resolve_batch_budgets (max_tokens max_sentences : Option Nat) :
    Option Nat × Option Nat :=
  if max_tokens = none ∧ max_sentences = none then (some 12000, max_sentences)
  else (max_tokens, max_sentences)

/-- The packer only regroups: flattening its output restores exactly the
closed batches, the open batch, and the unprocessed input, in order. -/
theorem packLoop_flatten (nt : Nat → Nat) (cfg : PackCfg) :
    ∀ (rest : List Nat) (closed : List (List Nat)) (batch : List Nat),
      (packLoop nt cfg rest closed batch).flatten = closed.flatten ++ batch ++ rest
  | [], closed, batch => by
    by_cases h : batch = [] <;> simp [packLoop, h]
  | idx :: rest, closed, batch => by
    simp only [packLoop]
    split_ifs with h1 h2
    · rw [packLoop_flatten nt cfg rest closed (batch ++ [idx])]
      simp
    · rw [packLoop_flatten nt cfg rest _ _]
      simp only [List.flatten_append, List.flatten_cons, List.flatten_nil, List.append_assoc,
        List.append_nil]
      rw [← List.append_assoc (batch.take _) (batch.drop _), List.take_append_drop]
      simp
    · rw [packLoop_flatten nt cfg rest closed (batch ++ [idx])]
      simp

/-- Flattening the produced batch list restores the input index sequence. -/
theorem batch_by_size_flatten (nt : Nat → Nat) (cfg : PackCfg) (indices : List Nat) :
    (batch_by_size nt cfg indices).flatten = indices := by
  simpa using packLoop_flatten nt cfg indices [] []

/-- Every index occurring in a produced batch occurs in the input sequence. -/
theorem mem_of_mem_batch_by_size (nt : Nat → Nat) (cfg : PackCfg) (indices : List Nat)
    (b : List Nat) (hb : b ∈ batch_by_size nt cfg indices) (i : Nat) (hi : i ∈ b) :
    i ∈ indices := by
  have : i ∈ (batch_by_size nt cfg indices).flatten := List.mem_flatten.mpr ⟨b, hb, hi⟩
  rwa [batch_by_size_flatten] at this

/-- Every batch the scan closes has length an exact multiple of `reqMult`:
closing only ever happens at a multiple-of-`reqMult` prefix. -/
theorem packLoop_closed_mult (nt : Nat → Nat) (cfg : PackCfg) :
    ∀ (rest : List Nat) (closed : List (List Nat)) (batch : List Nat),
      (∀ b ∈ closed, b.length % cfg.reqMult = 0) →
      ∀ b ∈ (packLoop nt cfg rest closed batch).dropLast, b.length % cfg.reqMult = 0
  | [], closed, batch => by
    intro hclosed b hb
    simp only [packLoop] at hb
    by_cases h : batch = []
    · rw [if_pos h] at hb
      exact hclosed b (List.dropLast_subset _ hb)
    · rw [if_neg h, List.dropLast_concat] at hb
      exact hclosed b hb
  | idx :: rest, closed, batch => by
    intro hclosed
    simp only [packLoop]
    split_ifs with h1 h2
    · exact packLoop_closed_mult nt cfg rest closed (batch ++ [idx]) hclosed
    · refine packLoop_closed_mult nt cfg rest _ _ ?_
      intro b hb
      rcases List.mem_append.mp hb with h | h
      · exact hclosed b h
      · have hbeq : b = batch.take (cfg.reqMult * (batch.length / cfg.reqMult)) := by
          simpa using h
        subst hbeq
        have hle : cfg.reqMult * (batch.length / cfg.reqMult) ≤ batch.length := by
          rw [Nat.mul_comm]
          exact Nat.div_mul_le_self _ _
        rw [List.length_take, Nat.min_eq_left hle, Nat.mul_mod_right]
    · exact packLoop_closed_mult nt cfg rest closed (batch ++ [idx]) hclosed

/-- A one-example batch respects the budgets whenever the example itself fits
the token budget and `max_sentences` (when set) is at least one. -/
theorem budgetOkB_singleton (nt : Nat → Nat) (cfg : PackCfg) (i : Nat)
    (hi : sizeOkB nt cfg i = true) (hS : ∀ s, cfg.maxSentences = some s → 1 ≤ s) :
    budgetOkB nt cfg [i] = true := by
  rcases cfg with ⟨mt, ms, m⟩
  simp only [sizeOkB] at hi
  simp only [budgetOkB, maxSize, List.map_cons, List.map_nil, List.foldr_cons, List.foldr_nil,
    List.length_cons, List.length_nil, Bool.and_eq_true]
  constructor
  · cases mt with
    | none => rfl
    | some t =>
      simp only [decide_eq_true_eq] at hi ⊢
      simpa using hi
  · cases ms with
    | none => rfl
    | some s =>
      have := hS s rfl
      simp only [decide_eq_true_eq]
      omega

/-- When the packer's overflow test passes, the extended open batch respects
both budgets. -/
theorem budgetOkB_append (nt : Nat → Nat) (cfg : PackCfg) (batch : List Nat) (idx : Nat)
    (h : overBudget nt cfg batch idx = false) :
    budgetOkB nt cfg (batch ++ [idx]) = true := by
  rcases cfg with ⟨mt, ms, m⟩
  simp only [overBudget, Bool.or_eq_false_iff] at h
  obtain ⟨h1, h2⟩ := h
  simp only [budgetOkB, Bool.and_eq_true, List.length_append, List.length_cons,
    List.length_nil]
  constructor
  · cases mt with
    | none => rfl
    | some t =>
      simp only [decide_eq_false_iff_not, Nat.not_lt] at h1
      simp only [decide_eq_true_eq]
      simpa using h1
  · cases ms with
    | none => rfl
    | some s =>
      simp only [decide_eq_false_iff_not, Nat.not_lt] at h2
      simp only [decide_eq_true_eq]
      omega

/-- Budget invariant of the scan when the batch-size multiple is 1: if every
remaining index fits the token budget, `max_sentences` is at least 1 when set,
every closed batch respects the budgets and the open batch does too, then so
does every batch of the final output. -/
theorem packLoop_budget (nt : Nat → Nat) (cfg : PackCfg) (hm : cfg.reqMult = 1)
    (hS : ∀ s, cfg.maxSentences = some s → 1 ≤ s) :
    ∀ (rest : List Nat) (closed : List (List Nat)) (batch : List Nat),
      (∀ i ∈ rest, sizeOkB nt cfg i = true) →
      (∀ b ∈ closed, budgetOkB nt cfg b = true) →
      (batch = [] ∨ budgetOkB nt cfg batch = true) →
      ∀ b ∈ packLoop nt cfg rest closed batch, budgetOkB nt cfg b = true
  | [], closed, batch => by
    intro _ hclosed hbatch b hb
    simp only [packLoop] at hb
    by_cases h : batch = []
    · rw [if_pos h] at hb
      exact hclosed b hb
    · rw [if_neg h] at hb
      rcases List.mem_append.mp hb with hmem | hmem
      · exact hclosed b hmem
      · have hbeq : b = batch := by simpa using hmem
        subst hbeq
        rcases hbatch with h' | h'
        · exact absurd h' h
        · exact h'
  | idx :: rest, closed, batch => by
    intro hrest hclosed hbatch
    have hidx : sizeOkB nt cfg idx = true := hrest idx (List.mem_cons_self _ _)
    have hrest' : ∀ i ∈ rest, sizeOkB nt cfg i = true :=
      fun i hi => hrest i (List.mem_cons_of_mem _ hi)
    simp only [packLoop]
    split_ifs with h1 h2
    · exfalso
      rw [hm, Nat.one_mul, Nat.div_one] at h2
      exact h1.1 (List.length_eq_zero.mp h2)
    · rw [hm, Nat.one_mul, Nat.div_one, List.take_length, List.drop_length, List.nil_append]
      refine packLoop_budget nt cfg hm hS rest _ _ hrest' ?_
        (Or.inr (budgetOkB_singleton nt cfg idx hidx hS))
      intro b hb
      rcases List.mem_append.mp hb with hmem | hmem
      · exact hclosed b hmem
      · have hbeq : b = batch := by simpa using hmem
        subst hbeq
        rcases hbatch with h' | h'
        · exact absurd h' h1.1
        · exact h'
    · by_cases hb0 : batch = []
      · subst hb0
        rw [List.nil_append]
        exact packLoop_budget nt cfg hm hS rest closed [idx] hrest' hclosed
          (Or.inr (budgetOkB_singleton nt cfg idx hidx hS))
      · have hov : overBudget nt cfg batch idx = false := by
          rcases Bool.eq_false_or_eq_true (overBudget nt cfg batch idx) with h' | h'
          · exact absurd ⟨hb0, h'⟩ h1
          · exact h'
        exact packLoop_budget nt cfg hm hS rest closed (batch ++ [idx]) hrest' hclosed
          (Or.inr (budgetOkB_append nt cfg batch idx hov))

/-- C1 as stated is false on the modelled packer invoked through
`get_batch_iterator`.  First input: a single index with `num_tokens = 5` and
`max_tokens = 3` (no positional limit, so the validity filter passes it); the
packer forms the batch `[0]` whose charged cost `5 * 1` exceeds the budget —
the spec's own oversize edge case.  Second input: ten unit-size indices with
`max_sentences = 3` and `required_batch_size_multiple = 5`; the packer may
only close a batch at a multiple of 5, so it absorbs past the sentence budget
and emits the batch `[0,1,2,3,4]` of length `5 > 3`. -/
theorem C1_counterexample :
    (get_batch_iterator_batches (fun _ => 5) (fun _ => 5) [0] none false ⟨some 3, none, 1⟩ =
        .ok [[0]] ∧
      budgetOkB (fun _ => 5) ⟨some 3, none, 1⟩ [0] = false) ∧
    (get_batch_iterator_batches (fun _ => 1) (fun _ => 1) (List.range 10) none false
          ⟨none, some 3, 5⟩ =
        .ok [[0, 1, 2, 3, 4], [5, 6, 7, 8, 9]] ∧
      budgetOkB (fun _ => 1) ⟨none, some 3, 5⟩ [0, 1, 2, 3, 4] = false) :=
  ⟨⟨rfl, rfl⟩, ⟨rfl, rfl⟩⟩

/-- C1 (amended): when `required_batch_size_multiple` is 1, every index's
`num_tokens` is at most `max_tokens` whenever it is set, and `max_sentences`
is at least 1 whenever it is set, every batch produced by the batch packer
satisfies `max(size in batch) * length(batch) ≤ max_tokens` (when set) and
`length(batch) ≤ max_sentences` (when set). -/
theorem C1_budget_respect (nt : Nat → Nat) (cfg : PackCfg) (indices : List Nat)
    (hm : cfg.reqMult = 1)
    (hS : ∀ s, cfg.maxSentences = some s → 1 ≤ s)
    (hsz : ∀ i ∈ indices, sizeOkB nt cfg i = true) :
    ∀ b ∈ batch_by_size nt cfg indices, budgetOkB nt cfg b = true :=
  packLoop_budget nt cfg hm hS indices [] [] hsz (by simp) (Or.inl rfl)

/-- Witness for C1 (amended) at a concrete input: sizes `1, 2, 3` under
`max_tokens = 4`, `max_sentences = 2`, multiple 1 produce the batches
`[0, 1]` and `[2]`, and both respect the budgets. -/
theorem C1_budget_respect_witness :
    budgetOkB (fun j => j + 1) ⟨some 4, some 2, 1⟩ [0, 1] = true ∧
    budgetOkB (fun j => j + 1) ⟨some 4, some 2, 1⟩ [2] = true :=
  ⟨C1_budget_respect (fun j => j + 1) ⟨some 4, some 2, 1⟩ [0, 1, 2] rfl
      (fun s hs => by injection hs with h; omega) (by decide) [0, 1] (by decide),
    C1_budget_respect (fun j => j + 1) ⟨some 4, some 2, 1⟩ [0, 1, 2] rfl
      (fun s hs => by injection hs with h; omega) (by decide) [2] (by decide)⟩

/-- C5: for every input index sequence and every
`required_batch_size_multiple`, every batch produced by the batch packer
except possibly the last batch of the full traversal has a length that is an
exact multiple of `required_batch_size_multiple`. -/
theorem C5_multiple_constraint (nt : Nat → Nat) (cfg : PackCfg) (indices : List Nat) :
    ∀ b ∈ (batch_by_size nt cfg indices).dropLast, b.length % cfg.reqMult = 0 :=
  packLoop_closed_mult nt cfg indices [] [] (by simp)

/-- Witness for C5 at a concrete input: five unit-size indices under
`max_sentences = 2` and multiple 2 produce `[[0,1],[2,3],[4]]`, and the
non-final batch `[0, 1]` has length an exact multiple of 2. -/
theorem C5_multiple_constraint_witness :
    [0, 1] ∈ (batch_by_size (fun _ => 1) ⟨none, some 2, 2⟩ [0, 1, 2, 3, 4]).dropLast ∧
    [0, 1].length % (⟨none, some 2, 2⟩ : PackCfg).reqMult = 0 :=
  ⟨by decide,
    C5_multiple_constraint (fun _ => 1) ⟨none, some 2, 2⟩ [0, 1, 2, 3, 4] [0, 1] (by decide)⟩

/-- C2: with `max_positions` set and some index of the input exceeding it,
running the validity filter through `get_batch_iterator` with
`ignore_invalid_inputs = false` fails with an `InvalidExampleError` naming an
offending index and its size and yields no batches, while with
`ignore_invalid_inputs = true` no error is raised and the oversize index is
absent from every resulting batch. -/
theorem C2_strict_and_lenient (size nt : Nat → Nat) (cfg : PackCfg) (indices : List Nat)
    (p i : Nat) (hi : i ∈ indices) (hv : p < size i) :
    failsNamingViolator (get_batch_iterator_batches size nt indices (some p) false cfg)
      size p indices ∧
    lenientExcludes (get_batch_iterator_batches size nt indices (some p) true cfg) i := by
  have hfind : indices.find? (fun x => decide (p < size x)) ≠ none := by
    intro hnone
    have := List.find?_eq_none.mp hnone i hi
    simp only [decide_eq_true_eq] at this
    exact this hv
  rcases hj : indices.find? (fun x => decide (p < size x)) with _ | j
  · exact absurd hj hfind
  constructor
  · have hjmem : j ∈ indices := List.mem_of_find?_eq_some hj
    have hjviol : p < size j := by
      have := List.find?_some hj
      simpa using this
    simp only [get_batch_iterator_batches, filter_by_size, hj, Bool.not_false, if_pos rfl,
      Except.map, failsNamingViolator]
    exact ⟨hjmem, hjviol, rfl⟩
  · simp only [get_batch_iterator_batches, filter_by_size, hj, Bool.not_true,
      Bool.false_eq_true, if_neg, Except.map, lenientExcludes]
    intro b hb hib
    have hmem : i ∈ indices.filter (fun x => decide (size x ≤ p)) :=
      mem_of_mem_batch_by_size nt cfg _ b hb i hib
    have := (List.mem_filter.mp hmem).2
    simp only [decide_eq_true_eq] at this
    omega

/-- Witness for C2 at a concrete input: indices `[0, 1]` with sizes `5, 6`
and limit `p = 5`; index 1 violates the limit, strict mode fails naming a
violator, lenient mode drops it from all batches. -/
theorem C2_strict_and_lenient_witness :
    ((1 : Nat) ∈ [0, 1] ∧ (5 : Nat) < 6) ∧
    failsNamingViolator
      (get_batch_iterator_batches (fun j => j + 5) (fun _ => 1) [0, 1] (some 5) false
        ⟨none, none, 1⟩) (fun j => j + 5) 5 [0, 1] ∧
    lenientExcludes
      (get_batch_iterator_batches (fun j => j + 5) (fun _ => 1) [0, 1] (some 5) true
        ⟨none, none, 1⟩) 1 :=
  ⟨⟨by decide, by decide⟩,
    C2_strict_and_lenient (fun j => j + 5) (fun _ => 1) ⟨none, none, 1⟩ [0, 1] 5 1
      (by decide) (by decide)⟩

/-- Position characterization of round-robin sharding: the `j`-th batch of
shard `s` is the batch at global position `s + j * k`. -/
theorem round_robin_getElem (k : Nat) (hk : 0 < k) (l : List (List Nat)) :
    ∀ (s j : Nat), (round_robin k l s)[j]? = l[s + j * k]? := by
  induction l with
  | nil => intro s j; simp [round_robin]
  | cons b bs ih =>
    intro s j
    simp only [round_robin]
    by_cases hs : s = 0
    · subst hs
      rw [if_pos rfl]
      cases j with
      | zero => simp
      | succ j' =>
        rw [List.getElem?_cons_succ, ih (k - 1) j']
        have h2 : 0 + (j' + 1) * k = (k - 1 + j' * k) + 1 := by
          rw [Nat.zero_add, Nat.succ_mul]
          generalize j' * k = m
          omega
        rw [h2, List.getElem?_cons_succ]
    · rw [if_neg hs, ih (s - 1) j]
      have h3 : s + j * k = (s - 1 + j * k) + 1 := by
        generalize j * k = m
        omega
      rw [h3, List.getElem?_cons_succ]

/-- Length of one shard: skipping `s` and then taking every `k`-th element of
a list of length `N` yields `(N - s + (k - 1)) / k` elements. -/
theorem round_robin_length (k : Nat) (hk : 0 < k) (l : List (List Nat)) :
    ∀ s : Nat, (round_robin k l s).length = (l.length - s + (k - 1)) / k := by
  induction l with
  | nil =>
    intro s
    simp only [round_robin, List.length_nil]
    rw [Nat.zero_sub, Nat.zero_add]
    exact (Nat.div_eq_of_lt (by omega)).symm
  | cons b bs ih =>
    intro s
    simp only [round_robin]
    by_cases hs : s = 0
    · subst hs
      rw [if_pos rfl]
      simp only [List.length_cons]
      rw [ih (k - 1)]
      have hsum : bs.length + 1 - 0 + (k - 1) = bs.length + k := by omega
      rw [hsum, Nat.add_div_right _ hk]
      by_cases hlen : k - 1 ≤ bs.length
      · rw [Nat.sub_add_cancel hlen]
      · have h0 : bs.length - (k - 1) = 0 := by omega
        rw [h0, Nat.zero_add, Nat.div_eq_of_lt (by omega), Nat.div_eq_of_lt (by omega)]
    · rw [if_neg hs, ih (s - 1)]
      have : bs.length - (s - 1) = (b :: bs).length - s := by
        simp only [List.length_cons]
        omega
      rw [this]

/-- In a batch list whose flattening is duplicate-free, an index determines
the global position of the batch containing it. -/
theorem flatten_nodup_position :
    ∀ (L : List (List Nat)), L.flatten.Nodup →
      ∀ (p₁ p₂ : Nat) (b₁ b₂ : List Nat) (x : Nat),
        L[p₁]? = some b₁ → L[p₂]? = some b₂ → x ∈ b₁ → x ∈ b₂ → p₁ = p₂
  | [], _, p₁, p₂, b₁, b₂, x, h1, h2, hx1, hx2 => by simp at h1
  | hd :: T, hnd, p₁, p₂, b₁, b₂, x, h1, h2, hx1, hx2 => by
    rw [List.flatten_cons, List.nodup_append] at hnd
    obtain ⟨hh, hT, hdisj⟩ := hnd
    match p₁, p₂ with
    | 0, 0 => rfl
    | 0, q + 1 =>
      exfalso
      rw [List.getElem?_cons_zero] at h1
      injection h1 with h1
      subst h1
      rw [List.getElem?_cons_succ] at h2
      have hb2 : b₂ ∈ T := List.getElem?_mem h2
      exact hdisj hx1 (List.mem_flatten.mpr ⟨b₂, hb2, hx2⟩)
    | q + 1, 0 =>
      exfalso
      rw [List.getElem?_cons_zero] at h2
      injection h2 with h2
      subst h2
      rw [List.getElem?_cons_succ] at h1
      have hb1 : b₁ ∈ T := List.getElem?_mem h1
      exact hdisj hx2 (List.mem_flatten.mpr ⟨b₁, hb1, hx1⟩)
    | q₁ + 1, q₂ + 1 =>
      rw [List.getElem?_cons_succ] at h1 h2
      exact congrArg (· + 1) (flatten_nodup_position T hT q₁ q₂ b₁ b₂ x h1 h2 hx1 hx2)

/-- C3: for every Global Batch List and every positive shard count, (i) the
batch at global position `p` sits in shard `p % k` at slot `p / k`; (ii) slot
`j` of shard `s` holds exactly the batch at global position `s + j * k`, so
the shards' lists, read by ordinal position, reconstruct the Global Batch
List exactly once each; (iii) when the batches partition distinct indices, no
index occurs in two different shards' batches (pairwise disjointness); and
(iv) every shard receives either the floor or the ceiling of `N / k`
batches. -/
theorem C3_sharding (batches : List (List Nat)) (k : Nat) (hk : 0 < k) :
    (∀ p : Nat, p < batches.length →
      (shard_batches batches k (p % k))[p / k]? = batches[p]?) ∧
    (∀ s j : Nat, (shard_batches batches k s)[j]? = batches[s + j * k]?) ∧
    (batches.flatten.Nodup →
      ∀ s t : Nat, s < k → t < k →
        ∀ b₁ b₂ : List Nat,
          b₁ ∈ shard_batches batches k s → b₂ ∈ shard_batches batches k t →
          ∀ x : Nat, x ∈ b₁ → x ∈ b₂ → s = t ∧ b₁ = b₂) ∧
    (∀ s : Nat, s < k →
      (shard_batches batches k s).length = batches.length / k ∨
      (shard_batches batches k s).length = (batches.length + (k - 1)) / k) := by
  have hget : ∀ s j : Nat, (shard_batches batches k s)[j]? = batches[s + j * k]? :=
    fun s j => round_robin_getElem k hk batches s j
  refine ⟨?_, hget, ?_, ?_⟩
  · intro p _
    rw [hget (p % k) (p / k), Nat.mod_add_div' p k]
  · intro hnd s t hs ht b₁ b₂ hb₁ hb₂ x hx1 hx2
    obtain ⟨j₁, hj₁⟩ := List.mem_iff_getElem?.mp hb₁
    obtain ⟨j₂, hj₂⟩ := List.mem_iff_getElem?.mp hb₂
    rw [hget s j₁] at hj₁
    rw [hget t j₂] at hj₂
    have hpos : s + j₁ * k = t + j₂ * k :=
      flatten_nodup_position batches hnd _ _ b₁ b₂ x hj₁ hj₂ hx1 hx2
    have hst : s = t := by
      have hmod := congrArg (· % k) hpos
      simp only [Nat.add_mul_mod_self_right] at hmod
      rwa [Nat.mod_eq_of_lt hs, Nat.mod_eq_of_lt ht] at hmod
    subst hst
    refine ⟨rfl, ?_⟩
    have hj : j₁ = j₂ := by
      have : j₁ * k = j₂ * k := by omega
      exact Nat.eq_of_mul_eq_mul_right hk this
    subst hj
    rw [hj₁] at hj₂
    injection hj₂
  · intro s hs
    rw [shard_batches, round_robin_length k hk batches s]
    have h1 : batches.length / k ≤ (batches.length - s + (k - 1)) / k :=
      Nat.div_le_div_right (by omega)
    have h2 : (batches.length - s + (k - 1)) / k ≤ (batches.length + (k - 1)) / k :=
      Nat.div_le_div_right (by omega)
    have h3 : (batches.length + (k - 1)) / k ≤ batches.length / k + 1 := by
      calc (batches.length + (k - 1)) / k
          ≤ (batches.length + k) / k := Nat.div_le_div_right (by omega)
        _ = batches.length / k + 1 := Nat.add_div_right _ hk
    generalize batches.length / k = A at h1 h3 ⊢
    generalize (batches.length - s + (k - 1)) / k = B at h1 h2 ⊢
    generalize (batches.length + (k - 1)) / k = C at h2 h3 ⊢
    omega

/-- Witness for C3 at the spec's scenario: 5 batches over 2 shards; slot 1 of
shard 1 holds the batch at global position `1 + 1 * 2 = 3`. -/
theorem C3_sharding_witness :
    (0 : Nat) < 2 ∧
    (shard_batches [[0], [1], [2], [3], [4]] 2 1)[1]? = some [3] := by
  refine ⟨by decide, ?_⟩
  have h := (C3_sharding [[0], [1], [2], [3], [4]] 2 (by decide)).2.1 1 1
  rw [h]
  decide

/-- C4: for every fixed seed, epoch number and dataset snapshot, two
independent runs of starting an epoch and fully traversing it — even from
different ambient RNG states, the only mutable state in scope — yield
identical batch contents in identical order: the traversal is a function of
`(seed, epoch, dataset)` alone, because `numpy_seed` replaces the ambient
state with one derived from `seed`. -/
theorem C4_determinism (D : DatasetModel) (seed epoch : Nat) (maxPositions : Option Nat)
    (ignoreInvalid : Bool) (cfg : PackCfg) (numShards shardId : Nat) (shuffle : Bool)
    (g1 g2 : RngState) :
    start_epoch_traversal g1 D seed epoch maxPositions ignoreInvalid cfg
        numShards shardId shuffle =
      start_epoch_traversal g2 D seed epoch maxPositions ignoreInvalid cfg
        numShards shardId shuffle := rfl

/-- C6 fails on the code: `get_batch_iterator` does not recognize
`num_workers` or `data_buffer_size` — they appear in the call made by
`entity_retrieval_scores._main` but not in the signature, so the call is
rejected; dropping exactly those two keywords would make it acceptable. -/
theorem C6_call_rejected :
    accepts_call get_batch_iterator_param_names entity_retrieval_call_kwarg_names = false ∧
    entity_retrieval_call_kwarg_names.contains "num_workers" = true ∧
    get_batch_iterator_param_names.contains "num_workers" = false ∧
    entity_retrieval_call_kwarg_names.contains "data_buffer_size" = true ∧
    get_batch_iterator_param_names.contains "data_buffer_size" = false ∧
    accepts_call get_batch_iterator_param_names
      (entity_retrieval_call_kwarg_names.filter
        (fun kw => !(kw == "num_workers" || kw == "data_buffer_size"))) = true :=
  ⟨rfl, rfl, rfl, rfl, rfl, rfl⟩

/-- C7 fails as stated for loaded splits: a split loaded with an object that
is not a `FairseqDataset` is not returned unchanged — the lookup raises the
dataset-type error instead. -/
theorem C7_counterexample :
    FairseqTask.dataset [("train", DatasetObj.otherObj 0)] "train" =
      .error .datasetTypeErr ∧
    FairseqTask.dataset [("train", DatasetObj.otherObj 0)] "train" ≠
      .ok (DatasetObj.otherObj 0) :=
  ⟨rfl, fun h => Except.noConfusion h⟩

/-- C7 (amended): looking up a never-loaded split fails with the
unknown-split error naming that split; a loaded split is returned unchanged
provided the stored object is a `FairseqDataset`; a loaded split holding any
other object makes the lookup fail with the dataset-type error instead of
returning it. -/
theorem C7_dataset_lookup (datasets : List (String × DatasetObj)) (split : String) :
    (datasets.lookup split = none →
      FairseqTask.dataset datasets split = .error (.unknownSplit split)) ∧
    (∀ p, datasets.lookup split = some (.fairseqDataset p) →
      FairseqTask.dataset datasets split = .ok (.fairseqDataset p)) ∧
    (∀ p, datasets.lookup split = some (.otherObj p) →
      FairseqTask.dataset datasets split = .error .datasetTypeErr) := by
  refine ⟨fun h => ?_, fun p h => ?_, fun p h => ?_⟩ <;>
    simp [FairseqTask.dataset, h]

/-- Witness for C7 (amended): with only "train" loaded (as a proper
`FairseqDataset`), looking up "valid" fails with the unknown-split error and
looking up "train" returns the dataset unchanged. -/
theorem C7_dataset_lookup_witness :
    ([("train", DatasetObj.fairseqDataset 7)].lookup "valid" = none ∧
      FairseqTask.dataset [("train", DatasetObj.fairseqDataset 7)] "valid" =
        .error (.unknownSplit "valid")) ∧
    FairseqTask.dataset [("train", DatasetObj.fairseqDataset 7)] "train" =
      .ok (DatasetObj.fairseqDataset 7) :=
  ⟨⟨rfl, (C7_dataset_lookup [("train", DatasetObj.fairseqDataset 7)] "valid").1 rfl⟩,
    (C7_dataset_lookup [("train", DatasetObj.fairseqDataset 7)] "train").2.1 7 rfl⟩

/-- C8: the scoring CLI aborts with a non-zero outcome when the
model-checkpoint path or the results output path is missing, and on normal
completion writes a results file to the given results path and exits
zero. -/
theorem C8_cli_paths (args : GenArgs) :
    (args.path = none ∨ args.results_path = none → script_main args = .aborted) ∧
    (∀ mp rp, args.path = some mp → args.results_path = some rp →
      script_main args = .completed rp) := by
  constructor
  · rintro (h | h)
    · simp [script_main, h]
    · cases hp : args.path <;> simp [script_main, hp, h]
  · intro mp rp h1 h2
    simp [script_main, h1, h2]

/-- Witness for C8 at concrete argument records: a missing checkpoint path
aborts, a missing results path aborts, and both present complete with the
results file written to the results path. -/
theorem C8_cli_paths_witness :
    script_main ⟨none, some "res.pkl"⟩ = .aborted ∧
    script_main ⟨some "model.pt", none⟩ = .aborted ∧
    script_main ⟨some "model.pt", some "res.pkl"⟩ = .completed "res.pkl" :=
  ⟨(C8_cli_paths ⟨none, some "res.pkl"⟩).1 (Or.inl rfl),
    (C8_cli_paths ⟨some "model.pt", none⟩).1 (Or.inr rfl),
    (C8_cli_paths ⟨some "model.pt", some "res.pkl"⟩).2 "model.pt" "res.pkl" rfl rfl⟩

/-- Cache entries persist across a run: insertions never shadow an existing
key, so a looked-up value survives every later access. -/
theorem generate_scores_pass_persists (enc : String → Nat) :
    ∀ (cands : List String) (cache : List (String × Nat)) (c : String) (v : Nat),
      cache.lookup c = some v →
      ((generate_scores_pass enc cands cache).1).lookup c = some v
  | [], _, _, _, h => h
  | c' :: cs, cache, c, v, h => by
    simp only [generate_scores_pass]
    apply generate_scores_pass_persists enc cs
    simp only [text_encode_or_cache]
    cases hl : cache.lookup c' with
    | some w => simpa using h
    | none =>
      have hcc : (c == c') = false := by
        rcases hb : c == c' with _ | _
        · rfl
        · exfalso
          have : c = c' := by simpa using hb
          subst this
          rw [h] at hl
          cases hl
      simpa [List.lookup, hcc] using h

/-- After a run over `cands`, every candidate of the run has an entry in the
cache. -/
theorem generate_scores_pass_caches (enc : String → Nat) :
    ∀ (cands : List String) (cache : List (String × Nat)) (c : String), c ∈ cands →
      ∃ v, ((generate_scores_pass enc cands cache).1).lookup c = some v
  | [], _, c, h => absurd h (List.not_mem_nil c)
  | c' :: cs, cache, c, h => by
    simp only [generate_scores_pass]
    by_cases hc : c ∈ cs
    · exact generate_scores_pass_caches enc cs _ c hc
    · have hcc : c = c' := by
        rcases List.mem_cons.mp h with h' | h'
        · exact h'
        · exact absurd h' hc
      subst hcc
      have hstep : ∃ v, ((text_encode_or_cache enc cache c).2.1).lookup c = some v := by
        simp only [text_encode_or_cache]
        cases hl : cache.lookup c with
        | some w => exact ⟨w, by simpa using hl⟩
        | none => exact ⟨enc c, by simp [List.lookup]⟩
      obtain ⟨v, hv⟩ := hstep
      exact ⟨v, generate_scores_pass_persists enc cs _ c v hv⟩

/-- C9 fails as stated: `TEXT_CACHE` is module-level process-wide state, so
an entry cached by one run is observable in a later independent run in the
same process — the second run over the same candidate list reports a cache
hit (`[true]`) where a fresh run reports a miss (`[false]`). -/
theorem C9_counterexample :
    (generate_scores_pass (fun s => s.length) ["ent"] TEXT_CACHE_initial).2 = [false] ∧
    ((generate_scores_pass (fun s => s.length) ["ent"] TEXT_CACHE_initial).1).lookup "ent" =
      some 3 ∧
    (generate_scores_pass (fun s => s.length) ["ent"]
        ((generate_scores_pass (fun s => s.length) ["ent"] TEXT_CACHE_initial).1)).2 =
      [true] :=
  ⟨rfl, rfl, rfl⟩

/-- C9 (amended): the per-candidate text-encoder cache is process-wide
module-level mutable state, not per-run: every candidate scored in one run
leaves an entry that a later independent run in the same process observes
(its access is a hit returning the stored output, with no encoder call). -/
theorem C9_cache_persists (enc : String → Nat) (cache0 : List (String × Nat))
    (cands : List String) (c : String) (hc : c ∈ cands) :
    observes_cached_entry enc (generate_scores_pass enc cands cache0).1 c := by
  obtain ⟨v, hv⟩ := generate_scores_pass_caches enc cands cache0 c hc
  exact ⟨v, hv, by simp [text_encode_or_cache, hv]⟩

/-- Witness for C9 (amended): after one run over the candidate "ent"
starting from the process-initial cache, a later run observes the cached
entry. -/
theorem C9_cache_persists_witness :
    "ent" ∈ ["ent"] ∧
    observes_cached_entry (fun s => s.length)
      (generate_scores_pass (fun s => s.length) ["ent"] TEXT_CACHE_initial).1 "ent" :=
  ⟨by simp,
    C9_cache_persists (fun s => s.length) TEXT_CACHE_initial ["ent"] "ent" (by simp)⟩

/-- C10: when both `max_tokens` and `max_sentences` are unset the script
sets `max_tokens` to 12000 (and leaves `max_sentences` unset); when either
is set, both are passed through unchanged. -/
theorem C10_default_budgets (mt ms : Option Nat) :
    (mt = none → ms = none → resolve_batch_budgets mt ms = (some 12000, none)) ∧
    (∀ t, mt = some t → resolve_batch_budgets mt ms = (mt, ms)) ∧
    (∀ s, ms = some s → resolve_batch_budgets mt ms = (mt, ms)) := by
  refine ⟨fun h1 h2 => ?_, fun t ht => ?_, fun s hs => ?_⟩
  · subst h1; subst h2; rfl
  · simp [resolve_batch_budgets, ht]
  · simp [resolve_batch_budgets, hs]

/-- Witness for C10 at concrete budgets. -/
theorem C10_default_budgets_witness :
    resolve_batch_budgets none none = (some 12000, none) ∧
    resolve_batch_budgets (some 500) none = (some 500, none) ∧
    resolve_batch_budgets none (some 64) = (none, some 64) :=
  ⟨(C10_default_budgets none none).1 rfl rfl,
    (C10_default_budgets (some 500) none).2.1 500 rfl,
    (C10_default_budgets none (some 64)).2.2 64 rfl⟩
